import Mathlib

/-!
# Verification of the token-dashboard core

Shallow embedding of the repository's core logic:

* `TokenTable` (src/unnamed/part_000): the sort comparator used by
  `sortedTokens`, the `handleSort` toggle rule, and the row-level
  formatting functions (`formatCurrency`, `formatDate`, name/symbol
  fallbacks, bonding-curve percentage).
* `Home` (src/frontend/src/pages/index.js): `fetchTokens` and
  `fetchStats`, the statistics aggregation (`validMarketCaps`,
  `averageMarketCap`) and the page state they update.
* `Dashboard` (src/frontend/src/components/Dashboard.jsx): the
  aggregate-level `formatNumber` and `formatCurrency`.

JavaScript `Array.prototype.sort(cmp)` is modelled as the stable
merge sort `List.mergeSort` driven by `le a b := cmp a b ≤ 0` (per
the ECMAScript contract, `cmp a b > 0` means `b` must be placed
before `a`; `≤ 0` keeps `a` before `b`, which for a consistent
comparator is exactly stable sorting).  The comparator of this
repository is inconsistent — it answers `1` to a tied pair under both
argument orders, never `0` — and for an inconsistent comparator
ECMAScript leaves the resulting order implementation-defined, so on
ties this model is one admissible resolution among several (V8's
TimSort, for instance, asks the dual question and keeps ties in
insertion order; `tie_order_implementation_defined` below exhibits
the divergence).  Apart from that demonstration, the sorting theorems
in this file state only properties that are invariant across the
admissible resolutions: placement of null values, which the
comparator answers consistently, preservation of the input list and
of its multiset of records, and facts about the comparator itself.
JavaScript numbers are modelled as `ℚ` and nullable fields as
`Option`.
-/

namespace Bitquery

/-! ## Data model (spec §3, TokenRecord schema) -/

/-- A JavaScript value that can appear in a sortable column: the token
table sorts string columns (name, symbol, creation time) and numeric
columns (price, market cap, volume, bonding-curve progress). -/
inductive JsVal where
  | str : String → JsVal
  | num : ℚ → JsVal
deriving DecidableEq

/-- JavaScript `<` restricted to the homogeneous comparisons the table
performs: numeric `<` on numbers, lexicographic `<` on strings.  A
mixed-type comparison in JS coerces the string operand to a number,
yielding `NaN` in general, and any comparison with `NaN` is `false`;
the model returns `false` there. -/
def JsVal.jsLt : JsVal → JsVal → Bool
  | .num x, .num y => decide (x < y)
  | .str s, .str t => decide (s < t)
  | _, _ => false

/-- The `TokenRecord` schema (spec §3): identity, descriptive fields, nullable
numerics, boolean flags, nullable creation timestamp. -/
structure Token where
  id : ℕ
  token_address : String
  token_name : Option String
  token_symbol : Option String
  price : Option ℚ
  market_cap : Option ℚ
  volume_24h : Option ℚ
  bonding_curve_progress : Option ℚ
  creation_time : Option String
  is_king_of_hill : Bool
  raydium_migrated : Bool
deriving DecidableEq

/-- The seven sortable columns wired to `handleSort` in the table
header. -/
inductive SortField where
  | token_name | token_symbol | price | market_cap
  | volume_24h | bonding_curve_progress | creation_time
deriving DecidableEq

/-- Dynamic field lookup `record[sortField]`, typed per column. -/
def getField : SortField → Token → Option JsVal
  | .token_name, t => t.token_name.map .str
  | .token_symbol, t => t.token_symbol.map .str
  | .price, t => t.price.map .num
  | .market_cap, t => t.market_cap.map .num
  | .volume_24h, t => t.volume_24h.map .num
  | .bonding_curve_progress, t => t.bonding_curve_progress.map .num
  | .creation_time, t => t.creation_time.map .str

inductive Direction where
  | asc | desc
deriving DecidableEq

/-- The `SortState` pair (spec §3): the active field and direction held in the
component's `useState` hooks, default `(market_cap, desc)`. -/
structure SortState where
  sortField : SortField
  sortDirection : Direction
deriving DecidableEq

def initialSortState : SortState := ⟨.market_cap, .desc⟩

/-! ## TokenTable: handleSort (src/unnamed/part_000 lines 8–15) -/

/-- The toggle `handleSort(field)`: same field flips the direction, a new field
becomes active with direction reset to `desc`. -/
def handleSort (field : SortField) (s : SortState) : SortState :=
  if field = s.sortField then
    { s with sortDirection := if s.sortDirection = .asc then .desc else .asc }
  else
    { sortField := field, sortDirection := .desc }

/-! ## TokenTable: the sort comparator (src/unnamed/part_000 lines 17–26) -/

/-- The comparator passed to `.sort`:
`a[sortField] === null` short-circuits to `1` (before inspecting `b`),
then `b[sortField] === null` to `-1`; otherwise ascending uses
`a < b ? -1 : 1` and descending uses `a > b ? -1 : 1`. -/
def sortComparator (f : SortField) (d : Direction) (a b : Token) : Int :=
  match getField f a with
  | none => 1
  | some x =>
    match getField f b with
    | none => -1
    | some y =>
      match d with
      | .asc => if JsVal.jsLt x y then -1 else 1
      | .desc => if JsVal.jsLt y x then -1 else 1

/-- The ordering the comparator induces on the sort: `a` may stay
before `b` exactly when the comparator does not demand a swap. -/
def sortLE (f : SortField) (d : Direction) (a b : Token) : Bool :=
  decide (sortComparator f d a b ≤ 0)

/-- The spread `[...tokens]`: a fresh array with the same elements. -/
def spreadCopy (l : List α) : List α := l.foldr (· :: ·) []

/-- The statement `const sortedTokens = [...tokens].sort(cmp)` with explicit array
state: the first component is the (in-place sorted) copy bound to
`sortedTokens`, the second is the `tokens` array after the statement —
the sort ran on the copy, so `tokens` is what it was. -/
def sortedTokensRun (f : SortField) (d : Direction) (tokens : List Token) :
    List Token × List Token :=
  (((spreadCopy tokens).mergeSort (sortLE f d)), tokens)

/-- The displayed sequence, under this model's resolution of the
implementation-defined tie order (see the module docstring): on
records the comparator strictly orders it is the displayed sequence
of every engine; on ties engines may differ from it. -/
def sortedTokens (f : SortField) (d : Direction) (tokens : List Token) : List Token :=
  (sortedTokensRun f d tokens).1

theorem spreadCopy_eq (l : List α) : spreadCopy l = l := by
  induction l <;> simp_all [spreadCopy]

/-! ## Home page state (src/frontend/src/pages/index.js) -/

/-- The `SummaryStats` record (spec §3): the four aggregate figures held in the
`stats` state hook. -/
structure SummaryStats where
  totalTokens : ℕ
  kingsOfHill : ℕ
  raydiumMigrated : ℕ
  averageMarketCap : ℚ
deriving DecidableEq

/-- Initial `useState` value of `stats`. -/
def initialStats : SummaryStats := ⟨0, 0, 0, 0⟩

/-- The page's three state hooks: `tokens`, `loading`, `stats`. -/
structure PageState where
  tokens : List Token
  loading : Bool
  stats : SummaryStats
deriving DecidableEq

def initialPageState : PageState := ⟨[], true, initialStats⟩

/-! ## fetchTokens (index.js lines 21–37) -/

/-- The resolved value of the supabase tokens query: a `data`/`error`
pair (supabase reports soft failures in `error` with `data` null). -/
structure TokensQueryResult where
  data : Option (List Token)
  error : Option String
deriving DecidableEq

/-- Model of `fetchTokens`: `setLoading(true)`, await the query; a rejected
promise or a non-null `error` (re-thrown by `if (error) throw error`)
lands in `catch`, which only logs; `finally` runs `setLoading(false)`
in every case.  `setTokens(data || [])` runs only on success. -/
def fetchTokens (res : Except Unit TokensQueryResult) (s : PageState) : PageState :=
  match res with
  | .error _ => { s with loading := false }
  | .ok r =>
    match r.error with
    | some _ => { s with loading := false }
    | none => { s with tokens := r.data.getD [], loading := false }

/-- A failed tokens fetch: the promise rejected, or the result carried
a non-null `error` (either way control reaches `catch`). -/
def tokensFetchFailed : Except Unit TokensQueryResult → Bool
  | .error _ => true
  | .ok r => r.error.isSome

/-! ## fetchStats (index.js lines 39–80) -/

/-- A row of the `select('market_cap')` query. -/
structure MarketCapRow where
  market_cap : Option ℚ
deriving DecidableEq

/-- The resolved value of a head-count query: `count` is null when the
query errored or returned no result. -/
structure CountQueryResult where
  count : Option ℕ
deriving DecidableEq

/-- The resolved value of the market-cap query: `data` is null when
the query errored. -/
structure CapsQueryResult where
  data : Option (List MarketCapRow)
deriving DecidableEq

/-- JavaScript truthiness of a nullable numeric field:
null/undefined and `0` are falsy. -/
def jsTruthy : Option ℚ → Bool
  | none => false
  | some x => !(x = 0)

/-- The pipeline `marketCapData.filter(token => token.market_cap).map(token => token.market_cap)`:
keep the rows with a truthy market cap, then project the value (every
surviving row has one). -/
def validMarketCaps (rows : List MarketCapRow) : List ℚ :=
  (rows.filter (fun t => jsTruthy t.market_cap)).filterMap (fun t => t.market_cap)

/-- The expression `validMarketCaps.length > 0 ? validMarketCaps.reduce((sum, cap) => sum + cap, 0) / validMarketCaps.length : 0`. -/
def averageMarketCap (rows : List MarketCapRow) : ℚ :=
  if 0 < (validMarketCaps rows).length then
    ((validMarketCaps rows).foldl (· + ·) 0) / ((validMarketCaps rows).length : ℚ)
  else 0

/-- JavaScript `count || 0` on a nullable count. -/
def jsOrZero (c : Option ℕ) : ℕ := c.getD 0

/-- The object passed to `setStats` on the success path. -/
def computeStats (totalTokens kingsOfHill raydiumMigrated : Option ℕ)
    (rows : List MarketCapRow) : SummaryStats :=
  { totalTokens := jsOrZero totalTokens
    kingsOfHill := jsOrZero kingsOfHill
    raydiumMigrated := jsOrZero raydiumMigrated
    averageMarketCap := averageMarketCap rows }

/-- The four awaited results consumed inside the `try` block. -/
structure StatsFetchResults where
  totalRes : Except Unit CountQueryResult
  kingsRes : Except Unit CountQueryResult
  migratedRes : Except Unit CountQueryResult
  capsRes : Except Unit CapsQueryResult

/-- Model of `fetchStats`: all four awaits and the aggregation run inside one
`try`.  A rejected promise throws; a null `marketCapData` makes
`.filter` throw a `TypeError`; either way `catch` only logs and
`setStats` never runs, leaving the previous stats in place.  On
success `setStats` stores the freshly computed object.  The `tokens`
and `loading` hooks are never touched on this path. -/
def fetchStats (r : StatsFetchResults) (s : PageState) : PageState :=
  match r.totalRes, r.kingsRes, r.migratedRes, r.capsRes with
  | .ok t, .ok k, .ok m, .ok caps =>
    match caps.data with
    | some rows => { s with stats := computeStats t.count k.count m.count rows }
    | none => s
  | _, _, _, _ => s

/-- A failure of any of the four stats inputs: a rejected promise on
any await, or a null `data` from the market-cap query (whose `.filter`
call then throws). -/
def statsFetchFailed (r : StatsFetchResults) : Bool :=
  !r.totalRes.isOk || !r.kingsRes.isOk || !r.migratedRes.isOk ||
    (match r.capsRes with
     | .ok caps => caps.data.isNone
     | .error _ => true)

/-! ## Formatting (src/unnamed/part_000 lines 28–41, table cells 94–128;
Dashboard.jsx lines 2–13)

`Intl.NumberFormat('en-US', { style: 'currency', currency: 'USD',
minimumFractionDigits, maximumFractionDigits })` is modelled
concretely: round half-away-from-zero to `d` fraction digits, where
`d` clamps the value's natural decimal length into
`[minDigits, maxDigits]` (trailing zeros beyond the minimum are
stripped, as Intl does); the integer part is grouped in threes with
commas and prefixed with `$`, negative values with a leading `-`. -/

/-- Exactly `d` least-significant decimal digits of `n`, zero-padded
on the left. -/
def padDigits : ℕ → ℕ → List Char
  | 0, _ => []
  | d + 1, n => padDigits d (n / 10) ++ [Nat.digitChar (n % 10)]

theorem padDigits_length (d n : ℕ) : (padDigits d n).length = d := by
  induction d generalizing n with
  | zero => rfl
  | succ d ih => simp [padDigits, ih]

/-- Insert `,` after every three characters of a reversed digit list. -/
def groupThrees : List Char → List Char
  | a :: b :: c :: d :: rest => a :: b :: c :: ',' :: groupThrees (d :: rest)
  | l => l

/-- Decimal digits of `n` grouped US-style (`1234 ↦ "1,234"`). -/
def intDigitsGrouped (n : ℕ) : List Char :=
  (groupThrees (Nat.toDigits 10 n).reverse).reverse

/-- The number of fraction digits Intl renders: the least
`n ≤ maxDigits` making `q * 10 ^ n` an integer (`maxDigits` if none),
clamped from below by `minDigits`. -/
def intlFracDigits (minDigits maxDigits : ℕ) (q : ℚ) : ℕ :=
  max minDigits (min maxDigits
    (((List.range (maxDigits + 1)).find? (fun n => (q * 10 ^ n).den = 1)).getD maxDigits))

/-- Nonnegative half-away-from-zero rounding (Intl's default
`halfExpand`, and JS `Math.round` on nonnegative input). -/
def roundHalfExpand (q : ℚ) : ℕ := (⌊q + 1 / 2⌋).toNat

/-- Render `|q|` rounded to exactly `d` fraction digits, with sign,
`$`, grouping, and a decimal point only when `d > 0`. -/
def usdRender (q : ℚ) (d : ℕ) : String :=
  (if q < 0 then "-" else "") ++ "$" ++
    (intDigitsGrouped (roundHalfExpand (|q| * 10 ^ d) / 10 ^ d)).asString ++
    (if d = 0 then "" else
      "." ++ (padDigits d (roundHalfExpand (|q| * 10 ^ d) % 10 ^ d)).asString)

/-- The Intl USD formatter of the given fraction-digit bounds. -/
def intlFormatUSD (minDigits maxDigits : ℕ) (q : ℚ) : String :=
  usdRender q (intlFracDigits minDigits maxDigits q)

/-- Row-level `formatCurrency` (TokenTable): explicit null/undefined
guard, then Intl USD with 2–6 fraction digits. -/
def formatCurrency (value : Option ℚ) : String :=
  match value with
  | none => "N/A"
  | some v => intlFormatUSD 2 6 v

/-- JavaScript `ToNumber` on a nullable numeric: `null` coerces
to `0`. -/
def jsToNumber (v : Option ℚ) : ℚ := v.getD 0

/-- Aggregate-level `formatCurrency` (Dashboard): no null guard — the
value is passed straight to Intl USD with 0 fraction digits, so a null
is coerced to `0`. -/
def dashboardFormatCurrency (value : Option ℚ) : String :=
  intlFormatUSD 0 0 (jsToNumber value)

/-- JavaScript `Math.round`: floor of `x + 1/2`, any sign. -/
def jsMathRound (q : ℚ) : ℤ := ⌊q + 1 / 2⌋

/-- Dashboard `formatNumber`: `Intl.NumberFormat().format(Math.round(num))`
— grouped decimal rendering of the rounded value. -/
def formatNumber (num : ℚ) : String :=
  let r := jsMathRound num
  (if r < 0 then "-" else "") ++ (intDigitsGrouped r.natAbs).asString

/-- Model of `Number.prototype.toFixed(d)`: plain (ungrouped) decimal rendering
with exactly `d` fraction digits, half-away-from-zero. -/
def toFixedStr (q : ℚ) (d : ℕ) : String :=
  (if q < 0 then "-" else "") ++
    (Nat.toDigits 10 (roundHalfExpand (|q| * 10 ^ d) / 10 ^ d)).asString ++
    (if d = 0 then "" else
      "." ++ (padDigits d (roundHalfExpand (|q| * 10 ^ d) % 10 ^ d)).asString)

/-- Model of the host `Date(s).toLocaleString()`: total on every
string (an unparsable input renders as an "Invalid Date" text, it
never throws); the exact locale text is outside this repository. -/
def jsDateToLocaleString (s : String) : String := "Date(" ++ s ++ ")"

/-- Model of `formatDate`: `if (!dateString) return 'N/A'` — null, undefined
and the empty string are falsy — else locale-render the date. -/
def formatDate (dateString : Option String) : String :=
  match dateString with
  | none => "N/A"
  | some s => if s = "" then "N/A" else jsDateToLocaleString s

/-- JavaScript `s || fallback` on a nullable string: null, undefined
and `""` are falsy. -/
def jsOrString (v : Option String) (fallback : String) : String :=
  match v with
  | none => fallback
  | some s => if s = "" then fallback else s

/-- Optional chaining `v?.m(...)`: null short-circuits to undefined. -/
def jsOptChain (v : Option α) (f : α → β) : Option β := v.map f

/-- The cell `\x7btoken.bonding_curve_progress?.toFixed(2) || 0\x7d`: the optional
chain yields undefined on a null progress, and `|| 0` then renders as
`"0"`; an empty string would be falsy too (toFixed never produces
one). -/
def renderProgressText (t : Token) : String :=
  match jsOptChain t.bonding_curve_progress (fun v => toFixedStr v 2) with
  | none => "0"
  | some s => if s = "" then "0" else s

/-- TypeError raised by member access on null/undefined — the one way
a formatting expression of this page could throw. -/
inductive JsError where
  | typeError
deriving DecidableEq

/-- JS member access or method call on a nullable receiver without an
optional chain: throws `TypeError` on null. -/
def jsCall (v : Option α) (f : α → β) : Except JsError β :=
  match v with
  | none => .error .typeError
  | some x => .ok (f x)

/-- One rendered table row (src/unnamed/part_000 lines 94–128): name,
symbol, price, market cap, 24h volume, bonding-curve text, creation
date — each cell produced exactly as in the JSX, in the `Except`
embedding in which an unguarded null access would surface as a
`TypeError`. -/
def renderRow (t : Token) : Except JsError (List String) :=
  Except.ok
    [ jsOrString t.token_name "Unknown",
      jsOrString t.token_symbol "N/A",
      formatCurrency t.price,
      formatCurrency t.market_cap,
      formatCurrency t.volume_24h,
      renderProgressText t,
      formatDate t.creation_time ]

/-- The four Dashboard figures (Dashboard.jsx lines 15–36), likewise
total. -/
def renderDashboard (stats : SummaryStats) : Except JsError (List String) :=
  Except.ok
    [ formatNumber stats.totalTokens,
      formatNumber stats.kingsOfHill,
      formatNumber stats.raydiumMigrated,
      dashboardFormatCurrency (some stats.averageMarketCap) ]

/-! ## Concrete records used as test inputs -/

/-- A record with market cap 5. -/
def tokenA : Token :=
  ⟨1, "addr1", some "Alpha", some "ALP", some 1, some 5, none, none, none, false, false⟩

/-- A distinct record with the same market cap 5 — a tie with `tokenA`
on the default sort field. -/
def tokenB : Token :=
  ⟨2, "addr2", some "Beta", some "BET", some 2, some 5, none, none, none, false, false⟩

/-! ## Lemmas about the comparator and the sort -/

theorem jsLt_irrefl (v : JsVal) : JsVal.jsLt v v = false := by
  cases v <;> simp [JsVal.jsLt]

/-- On a tie — equal non-null values, or two nulls — the comparator
answers `1` no matter which argument comes first. -/
theorem sortComparator_tie (f : SortField) (d : Direction) (a b : Token)
    (h : getField f a = getField f b) : sortComparator f d a b = 1 := by
  cases hva : getField f a with
  | none => simp [sortComparator, hva]
  | some x =>
    have hvb : getField f b = some x := h.symm.trans hva
    cases d <;> simp [sortComparator, hva, hvb, jsLt_irrefl]

theorem sortLE_of_null_left {f : SortField} (d : Direction) {a : Token} (b : Token)
    (ha : getField f a = none) : sortLE f d a b = false := by
  simp [sortLE, sortComparator, ha]

theorem sortLE_of_null_right {f : SortField} (d : Direction) {a b : Token}
    (ha : getField f a ≠ none) (hb : getField f b = none) : sortLE f d a b = true := by
  cases hva : getField f a with
  | none => exact absurd hva ha
  | some x => simp [sortLE, sortComparator, hva, hb]

/-- Merging two sequences in which no `P`-element precedes a
non-`P`-element yields such a sequence again, provided `le` never lets
a `P`-element stay in front (`h1`) and always lets a non-`P`-element
overtake a `P`-element (`h2`). -/
theorem pairwise_merge_of_le_false {α : Type _} {le : α → α → Bool} {P : α → Prop}
    (h1 : ∀ a b, P a → le a b = false)
    (h2 : ∀ a b, ¬P a → P b → le a b = true)
    (l₁ l₂ : List α)
    (s1 : l₁.Pairwise (fun a b => P a → P b))
    (s2 : l₂.Pairwise (fun a b => P a → P b)) :
    (List.merge l₁ l₂ le).Pairwise (fun a b => P a → P b) := by
  induction l₁ generalizing l₂ with
  | nil => simpa using s2
  | cons x l₁ ih₁ =>
    induction l₂ with
    | nil => simpa using s1
    | cons y l₂ ih₂ =>
      rw [List.cons_merge_cons]
      split
      next hxy =>
        apply List.Pairwise.cons
        · intro z _ hPx
          rw [h1 x y hPx] at hxy
          exact absurd hxy (by simp)
        · exact ih₁ (y :: l₂) s1.tail s2
      next hxy =>
        apply List.Pairwise.cons
        · intro z hz hPy
          have hPx : P x := by
            by_contra hx
            exact hxy (h2 x y hx hPy)
          rw [List.mem_merge] at hz
          rcases hz with hz | hz
          · rcases List.mem_cons.mp hz with rfl | hz
            · exact hPx
            · exact (List.rel_of_pairwise_cons s1 hz) hPx
          · exact (List.rel_of_pairwise_cons s2 hz) hPy
        · exact ih₂ s2.tail

/-- The merge sort of any sequence places every non-`P`-element before
every `P`-element, under the same two comparator facts. -/
theorem pairwise_mergeSort_of_le_false {α : Type _} {le : α → α → Bool} {P : α → Prop}
    (h1 : ∀ a b, P a → le a b = false)
    (h2 : ∀ a b, ¬P a → P b → le a b = true) :
    ∀ l : List α, (List.mergeSort l le).Pairwise (fun a b => P a → P b)
  | [] => by simp
  | [a] => by simp
  | a :: b :: xs => by
    have : (List.splitInTwo ⟨a :: b :: xs, rfl⟩).1.1.length < xs.length + 1 + 1 := by
      simp [List.splitInTwo_fst]; omega
    have : (List.splitInTwo ⟨a :: b :: xs, rfl⟩).2.1.length < xs.length + 1 + 1 := by
      simp [List.splitInTwo_snd]; omega
    rw [List.mergeSort]
    exact pairwise_merge_of_le_false h1 h2 _ _
      (pairwise_mergeSort_of_le_false h1 h2 _)
      (pairwise_mergeSort_of_le_false h1 h2 _)
termination_by l => l.length

/-- Merge sort of a two-element list, unfolded. -/
theorem mergeSort_pair {α : Type _} (le : α → α → Bool) (a b : α) :
    List.mergeSort [a, b] le = if le a b then [a, b] else [b, a] := by
  rw [List.mergeSort]
  simp [List.splitInTwo_fst, List.splitInTwo_snd, List.cons_merge_cons]

theorem sortLE_tie_false (f : SortField) (d : Direction) (a b : Token)
    (h : getField f a = getField f b) : sortLE f d a b = false := by
  simp [sortLE, sortComparator_tie f d a b h]

/-- The dual reading of the comparator as a sort switch: keep `a`
before `b` unless the comparator, asked about the pair the other way
round, demands that `b` come strictly first (`cmp b a < 0`).  This is
the question V8's TimSort asks during its merges and insertions.  For
a consistent comparator it agrees with `sortLE`; on this repository's
comparator the two readings part ways at ties. -/
def sortLEKeepTies (f : SortField) (d : Direction) (a b : Token) : Bool :=
  decide (0 ≤ sortComparator f d b a)

/-- The order of tied records is genuinely implementation-defined:
the comparator never answers `0`, and the two faithful sort switches
`sortLE` (ties give way) and `sortLEKeepTies` (ties hold their place)
make the same stable merge sort place the tied pair `tokenA`,
`tokenB` in opposite orders.  The source alone therefore does not
determine the displayed order of tied records; no other theorem in
this file depends on how that freedom is resolved. -/
theorem tie_order_implementation_defined :
    (spreadCopy [tokenA, tokenB]).mergeSort (sortLE .market_cap .desc) ≠
      (spreadCopy [tokenA, tokenB]).mergeSort (sortLEKeepTies .market_cap .desc) := by
  have hab := sortLE_tie_false .market_cap .desc tokenA tokenB (by decide)
  have hkeep : sortLEKeepTies .market_cap .desc tokenA tokenB = true := by
    simp [sortLEKeepTies, sortComparator_tie .market_cap .desc tokenB tokenA (by decide)]
  have h1 : (spreadCopy [tokenA, tokenB]).mergeSort (sortLE .market_cap .desc) =
      [tokenB, tokenA] := by
    simp [spreadCopy, mergeSort_pair, hab]
  have h2 : (spreadCopy [tokenA, tokenB]).mergeSort (sortLEKeepTies .market_cap .desc) =
      [tokenA, tokenB] := by
    simp [spreadCopy, mergeSort_pair, hkeep]
  rw [h1, h2]
  decide

/-- Evaluation of the aggregate formatter at null: Intl coerces the
null to `0` and renders it with zero fraction digits. -/
theorem dashboardFormatCurrency_none_eval : dashboardFormatCurrency none = "$0" := by
  have e0 : ((0:ℚ)).den = 1 := by norm_num
  have hd : intlFracDigits 0 0 (0 : ℚ) = 0 := by
    have hr : List.range 1 = [0] := by decide
    simp [intlFracDigits, hr, List.find?, e0]
  have habs : |(0:ℚ)| * 10 ^ 0 = 0 := by norm_num
  have hround : roundHalfExpand (0 : ℚ) = 0 := by
    have h1 : ⌊(0:ℚ) + 1/2⌋ = 0 := by norm_num
    unfold roundHalfExpand
    rw [h1]
    rfl
  have hneg : ¬ ((0:ℚ) < 0) := by norm_num
  simp only [dashboardFormatCurrency, jsToNumber, Option.getD, intlFormatUSD, hd, usdRender,
    habs, hround, if_neg hneg]
  decide

/-! ## The claims -/

/-- C2: for every input sequence, every sort field and both
directions, no record with a null sort-field value ever precedes a
record with a non-null one in the sorted output (equivalently, every
null-valued record is placed after every non-null-valued record). -/
theorem sortedTokens_nulls_last (f : SortField) (d : Direction) (tokens : List Token) :
    (sortedTokens f d tokens).Pairwise
      (fun a b => getField f a = none → getField f b = none) := by
  have h := @pairwise_mergeSort_of_le_false Token (sortLE f d)
    (fun t => getField f t = none)
    (fun a b ha => sortLE_of_null_left d b ha)
    (fun a b ha hb => sortLE_of_null_right d ha hb)
    (spreadCopy tokens)
  simpa [sortedTokens, sortedTokensRun] using h

/-- C3: the aggregator's average is the sum of the market caps that
survive the falsy filter (null and 0 both excluded) divided by their
count, `0` when none survives; `average [100, 200, null, 300] = 200`;
the summary for counts `120/3/40` and caps
`[1000000, 500000, null]` is `⟨120, 3, 40, 750000⟩`; and each count
defaults to `0` when its query returns no result. -/
theorem statsAggregator_spec :
    (∀ rows : List MarketCapRow,
      averageMarketCap rows =
        if validMarketCaps rows = [] then 0
        else (validMarketCaps rows).sum / ((validMarketCaps rows).length : ℚ)) ∧
    averageMarketCap [] = 0 ∧
    averageMarketCap [⟨some 100⟩, ⟨some 200⟩, ⟨none⟩, ⟨some 300⟩] = 200 ∧
    computeStats (some 120) (some 3) (some 40)
      [⟨some 1000000⟩, ⟨some 500000⟩, ⟨none⟩] = ⟨120, 3, 40, 750000⟩ ∧
    (∀ rows, computeStats none none none rows = ⟨0, 0, 0, averageMarketCap rows⟩) := by
  refine ⟨fun rows => ?_, rfl, ?_, ?_, fun rows => rfl⟩
  · rcases h : validMarketCaps rows with _ | ⟨x, xs⟩
    · simp [averageMarketCap, h]
    · unfold averageMarketCap
      rw [h]
      simp [List.sum_eq_foldl]
  · norm_num [averageMarketCap, validMarketCaps, jsTruthy, List.filterMap_cons]
  · norm_num [computeStats, jsOrZero, averageMarketCap, validMarketCaps, jsTruthy,
      List.filterMap_cons]

/-- C4: selecting the active field keeps it active and flips the
direction (twice restores it); selecting a different field makes it
active with direction `desc`. -/
theorem handleSort_toggle_spec (s : SortState) (g : SortField) (h : g ≠ s.sortField) :
    (handleSort s.sortField s).sortField = s.sortField ∧
    (handleSort s.sortField s).sortDirection ≠ s.sortDirection ∧
    handleSort s.sortField (handleSort s.sortField s) = s ∧
    handleSort g s = ⟨g, .desc⟩ := by
  obtain ⟨f, d⟩ := s
  cases d <;> simp_all [handleSort]

/-- Witness for C4 at the default state and the price column. -/
theorem handleSort_toggle_spec_witness :
    (handleSort initialSortState.sortField initialSortState).sortField =
      initialSortState.sortField ∧
    (handleSort initialSortState.sortField initialSortState).sortDirection ≠
      initialSortState.sortDirection ∧
    handleSort initialSortState.sortField
      (handleSort initialSortState.sortField initialSortState) = initialSortState ∧
    handleSort .price initialSortState = ⟨.price, .desc⟩ :=
  handleSort_toggle_spec initialSortState .price (by decide)

/-- C5: when any of the four stats inputs fails (a rejected await, or
a null market-cap `data` whose `.filter` throws), `fetchStats` returns
the state unchanged — the previously computed `SummaryStats` stays as
it was (stale-on-error) and nothing crashes (the function is total);
and on every path, success included, the table's `tokens` sequence and
the `loading` flag are untouched. -/
theorem fetchStats_stale_on_error (r : StatsFetchResults) (s : PageState) :
    (statsFetchFailed r = true → fetchStats r s = s) ∧
    (fetchStats r s).tokens = s.tokens ∧
    (fetchStats r s).loading = s.loading := by
  obtain ⟨tr, kr, mr, cr⟩ := r
  rcases tr with _ | t <;> rcases kr with _ | k <;> rcases mr with _ | m <;>
    rcases cr with _ | ⟨_ | rows⟩ <;>
    simp [fetchStats, statsFetchFailed, Except.isOk, Except.toBool]

/-- Witness for C5: four rejected fetches leave the page state as it
was. -/
theorem fetchStats_stale_on_error_witness :
    fetchStats ⟨Except.error (), Except.error (), Except.error (), Except.error ()⟩
      initialPageState = initialPageState :=
  (fetchStats_stale_on_error
    ⟨Except.error (), Except.error (), Except.error (), Except.error ()⟩
    initialPageState).1 rfl

/-- C6 (counterexample): the aggregate-level formatter does not map
null to `"N/A"` — it has no null guard, so Intl coerces the null to
`0` and renders `"$0"`. -/
theorem dashboardFormatCurrency_null_cex :
    dashboardFormatCurrency none = "$0" ∧ dashboardFormatCurrency none ≠ "N/A" := by
  refine ⟨dashboardFormatCurrency_none_eval, ?_⟩
  rw [dashboardFormatCurrency_none_eval]
  decide

/-- C6 (amended): the row-level formatter maps null/undefined to
`"N/A"` and any number to a US-dollar string carrying between 2 and 6
fraction digits after the decimal point (`1234.5 ↦ "$1,234.50"`); the
aggregate formatter has no null guard — null renders as `"$0"` — and
formats every value with 0 fraction digits
(`1500000 ↦ "$1,500,000"`). -/
theorem formatCurrency_digits_spec :
    formatCurrency none = "N/A" ∧
    (∀ q : ℚ, 2 ≤ intlFracDigits 2 6 q ∧ intlFracDigits 2 6 q ≤ 6 ∧
      ∃ pre : String, ∃ frac : List Char,
        frac.length = intlFracDigits 2 6 q ∧
        formatCurrency (some q) = pre ++ ("." ++ frac.asString)) ∧
    formatCurrency (some (2469/2 : ℚ)) = "$1,234.50" ∧
    dashboardFormatCurrency none = "$0" ∧
    (∀ v : Option ℚ, dashboardFormatCurrency v = usdRender (jsToNumber v) 0) ∧
    dashboardFormatCurrency (some 1500000) = "$1,500,000" := by
  refine ⟨rfl, fun q => ?_, ?_, dashboardFormatCurrency_none_eval, fun v => ?_, ?_⟩
  · have h2 : 2 ≤ intlFracDigits 2 6 q := by unfold intlFracDigits; omega
    have h6 : intlFracDigits 2 6 q ≤ 6 := by unfold intlFracDigits; omega
    refine ⟨h2, h6,
      (if q < 0 then "-" else "") ++ "$" ++
        (intDigitsGrouped (roundHalfExpand (|q| * 10 ^ intlFracDigits 2 6 q) /
          10 ^ intlFracDigits 2 6 q)).asString,
      padDigits (intlFracDigits 2 6 q)
        (roundHalfExpand (|q| * 10 ^ intlFracDigits 2 6 q) % 10 ^ intlFracDigits 2 6 q),
      padDigits_length _ _, ?_⟩
    show usdRender q (intlFracDigits 2 6 q) = _
    unfold usdRender
    rw [if_neg (by omega : ¬ intlFracDigits 2 6 q = 0)]
  · have e0 : ((2469:ℚ)/2).den = 2 := by norm_num
    have e1 : ((2469:ℚ)/2 * 10).den = 1 := by norm_num
    have hr : List.range 7 = [0, 1, 2, 3, 4, 5, 6] := by decide
    have hd : intlFracDigits 2 6 (2469/2 : ℚ) = 2 := by
      simp [intlFracDigits, hr, List.find?, e0, e1]
    have ha : |(2469:ℚ)/2| = 2469/2 := abs_of_nonneg (by norm_num)
    have habs : |(2469:ℚ)/2| * 10 ^ 2 = 123450 := by rw [ha]; norm_num
    have hround : roundHalfExpand (123450 : ℚ) = 123450 := by
      have h1 : ⌊(123450:ℚ) + 1/2⌋ = 123450 := by norm_num
      unfold roundHalfExpand
      rw [h1]
      rfl
    have hneg : ¬ ((2469:ℚ)/2 < 0) := by norm_num
    simp only [formatCurrency, intlFormatUSD, hd, usdRender, habs, hround, if_neg hneg]
    decide
  · have hd0 : intlFracDigits 0 0 (jsToNumber v) = 0 := by unfold intlFracDigits; omega
    rw [dashboardFormatCurrency, intlFormatUSD, hd0]
  · have e0 : ((1500000:ℚ)).den = 1 := by norm_num
    have hd : intlFracDigits 0 0 (1500000 : ℚ) = 0 := by
      have hr : List.range 1 = [0] := by decide
      simp [intlFracDigits, hr, List.find?, e0]
    have habs : |(1500000:ℚ)| * 10 ^ 0 = 1500000 := by
      rw [abs_of_nonneg (by norm_num : (0:ℚ) ≤ 1500000)]
      norm_num
    have hround : roundHalfExpand (1500000 : ℚ) = 1500000 := by
      have h1 : ⌊(1500000:ℚ) + 1/2⌋ = 1500000 := by norm_num
      unfold roundHalfExpand
      rw [h1]
      rfl
    have hneg : ¬ ((1500000:ℚ) < 0) := by norm_num
    simp only [dashboardFormatCurrency, jsToNumber, Option.getD, intlFormatUSD, hd,
      usdRender, habs, hround, if_neg hneg]
    decide

/-- C7: producing the display sequence does not change the input
sequence — the sort runs on the spread copy — and the display sequence
is a permutation of the input. -/
theorem sortedTokensRun_frame (f : SortField) (d : Direction) (tokens : List Token) :
    (sortedTokensRun f d tokens).2 = tokens ∧
    (sortedTokensRun f d tokens).1.Perm tokens := by
  refine ⟨rfl, ?_⟩
  simpa [sortedTokensRun, spreadCopy_eq] using
    List.mergeSort_perm (spreadCopy tokens) (sortLE f d)

/-- C8: every formatting function is total over the TokenRecord schema
including null — rendering a full row never reaches a throwing
operation for any record, the dashboard figures render for any stats,
and each null field degrades to its documented fallback string. -/
theorem formatters_total (t : Token) (stats : SummaryStats) :
    (renderRow t).isOk = true ∧
    (renderDashboard stats).isOk = true ∧
    formatCurrency none = "N/A" ∧
    formatDate none = "N/A" ∧
    formatDate (some "") = "N/A" ∧
    jsOrString none "Unknown" = "Unknown" ∧
    jsOrString none "N/A" = "N/A" ∧
    renderProgressText { t with bonding_curve_progress := none } = "0" :=
  ⟨rfl, rfl, rfl, rfl, rfl, rfl, rfl, rfl⟩

/-- C9: the comparator never answers `0`: it returns `1` or `-1` for
every pair, and on a tie — equal non-null values or two nulls — it
returns `1` for both argument orders, so it is not antisymmetric on
ties. -/
theorem sortComparator_no_zero (f : SortField) (d : Direction) (a b : Token) :
    (sortComparator f d a b = 1 ∨ sortComparator f d a b = -1) ∧
    (getField f a = getField f b →
      sortComparator f d a b = 1 ∧ sortComparator f d b a = 1) := by
  constructor
  · cases hva : getField f a with
    | none => left; simp [sortComparator, hva]
    | some x =>
      cases hvb : getField f b with
      | none => right; simp [sortComparator, hva, hvb]
      | some y =>
        cases d with
        | asc =>
          cases hxy : JsVal.jsLt x y
          · left; simp [sortComparator, hva, hvb, hxy]
          · right; simp [sortComparator, hva, hvb, hxy]
        | desc =>
          cases hyx : JsVal.jsLt y x
          · left; simp [sortComparator, hva, hvb, hyx]
          · right; simp [sortComparator, hva, hvb, hyx]
  · intro h
    exact ⟨sortComparator_tie f d a b h, sortComparator_tie f d b a h.symm⟩

/-- Witness for C9 at the concrete tied pair. -/
theorem sortComparator_no_zero_witness :
    sortComparator .market_cap .desc tokenA tokenB = 1 ∧
    sortComparator .market_cap .desc tokenB tokenA = 1 :=
  (sortComparator_no_zero .market_cap .desc tokenA tokenB).2 (by decide)

/-- C10: after `fetchTokens`, success or failure, the loading flag is
false (the `finally` block), and on failure `setTokens` never ran, so
the tokens state is unchanged. -/
theorem fetchTokens_spec (res : Except Unit TokensQueryResult) (s : PageState) :
    (fetchTokens res s).loading = false ∧
    (tokensFetchFailed res = true → (fetchTokens res s).tokens = s.tokens) := by
  rcases res with e | r
  · exact ⟨rfl, fun _ => rfl⟩
  · rcases r with ⟨data, _ | err⟩
    · exact ⟨rfl, by simp [tokensFetchFailed]⟩
    · exact ⟨rfl, fun _ => rfl⟩

/-- Witness for C10 at a rejected fetch. -/
theorem fetchTokens_spec_witness :
    (fetchTokens (Except.error ()) initialPageState).loading = false ∧
    (fetchTokens (Except.error ()) initialPageState).tokens = initialPageState.tokens :=
  ⟨(fetchTokens_spec (Except.error ()) initialPageState).1,
   (fetchTokens_spec (Except.error ()) initialPageState).2 rfl⟩

end Bitquery
